import Mathlib

/-!
Verification of the deribit market-data relay gateway (namespace `deribit`,
files `logger.cpp` / `websocket_server.{hpp,cpp}`) against its design
specification.  The canonical implementation modelled here is the
Boost.Beast thread-pool server with explicit `WebSocketSession` objects
(the one whose source lives in `logger.cpp` after the logger header):
`WebsocketServer::handle_client_message`, `subscribe_to_orderbook`,
`on_deribit_message`, `handle_orderbook_update`, `broadcast_to_subscribers`,
`on_accept`, `stop`, and `WebSocketSession::send` / `close`.

JSON values are modelled by an inductive AST; jsoncpp member access
(`operator[]`), `isMember` and `asString` are modelled with their library
semantics (missing members read as null, null converts to the empty string,
numbers and booleans stringify, arrays and objects throw - rendered as
`Except.error`, which the C++ code catches at the surrounding try/catch).
Numeric JSON values are modelled as integers; no claim here depends on
floating-point formatting.
-/

namespace DeribitGateway

/-- JSON value AST mirroring the `Json::Value` shapes the gateway code
touches.  Numbers carry an `Int`; the modelled code never inspects real
numbers. -/
inductive JValue where
  | null : JValue
  | bool : Bool → JValue
  | num : Int → JValue
  | str : String → JValue
  | arr : List JValue → JValue
  | obj : List (String × JValue) → JValue

/-- First binding of a key in a JSON object member list. -/
def objGet : List (String × JValue) → String → Option JValue
  | [], _ => none
  | (k0, v) :: rest, k => if k0 = k then some v else objGet rest k

/-- jsoncpp `Value::operator[](key)` as a read: on an object, the member or
null when absent; on null, null (operator[] materialises an empty object);
on any other type the library assertion throws `Json::LogicError`. -/
def getMember (j : JValue) (k : String) : Except Unit JValue :=
  match j with
  | JValue.obj fs => Except.ok ((objGet fs k).getD JValue.null)
  | JValue.null => Except.ok JValue.null
  | _ => Except.error ()

/-- jsoncpp `Value::isMember`: valid on null (false) and objects; any other
type throws. -/
def isMemberE (j : JValue) (k : String) : Except Unit Bool :=
  match j with
  | JValue.obj fs => Except.ok (objGet fs k).isSome
  | JValue.null => Except.ok false
  | _ => Except.error ()

/-- jsoncpp `Value::asString`: null reads as the empty string, booleans and
integers stringify, strings pass through, arrays and objects throw. -/
def jsonAsString : JValue → Except Unit String
  | JValue.null => Except.ok ""
  | JValue.str s => Except.ok s
  | JValue.bool b => Except.ok (if b then "true" else "false")
  | JValue.num n => Except.ok (toString n)
  | JValue.arr _ => Except.error ()
  | JValue.obj _ => Except.error ()

/-- Replace the first binding of `k` or append a new one - jsoncpp
`operator[] = v` on an object. -/
def objSet : List (String × JValue) → String → JValue → List (String × JValue)
  | [], k, v => [(k, v)]
  | (k0, v0) :: rest, k, v =>
      if k0 = k then (k, v) :: rest else (k0, v0) :: objSet rest k v

/-- jsoncpp `operator[] = v` as a write: null converts to a one-member
object; other non-object targets are never written to by the modelled
code. -/
def setMember (j : JValue) (k : String) (v : JValue) : JValue :=
  match j with
  | JValue.obj fs => JValue.obj (objSet fs k v)
  | JValue.null => JValue.obj [(k, v)]
  | _ => j

/-- Total read used while building requests (the build path only ever
touches null and object values). -/
def memberOrNull (j : JValue) (k : String) : JValue :=
  match j with
  | JValue.obj fs => (objGet fs k).getD JValue.null
  | _ => JValue.null

/-- Read-modify-write through `operator[]`, which in C++ returns a
reference that the caller mutates in place. -/
def updMember (j : JValue) (k : String) (f : JValue → JValue) : JValue :=
  setMember j k (f (memberOrNull j k))

/-- `Json::Value::append` on an array (an empty array was assigned just
before the modelled append, so only the array case is ever reached). -/
def jarrAppend (j v : JValue) : JValue :=
  match j with
  | JValue.arr xs => JValue.arr (xs ++ [v])
  | JValue.null => JValue.arr [v]
  | _ => j

/-! ## The subscription registry

`WebsocketServer::subscriptions_` is a
`std::map<std::shared_ptr<WebSocketSession>, std::set<std::string>>`.
Sessions are identified by a `Nat` handle; the map is an association list
with std::map update semantics (unique keys are preserved by `mapSet`),
and each `std::set<std::string>` is a `Finset String`. -/

/-- Registry type: session handle to subscribed symbol set. -/
def Registry : Type := List (Nat × Finset String)

instance : DecidableEq Registry := by
  unfold Registry; infer_instance

/-- `std::map::find` semantics: the binding of the first matching key. -/
def mapLookup : Registry → Nat → Option (Finset String)
  | [], _ => none
  | (k0, v) :: rest, k => if k0 = k then some v else mapLookup rest k

/-- `std::map::operator[] = v`: replace the binding in place, or insert a
new one (position in the list is irrelevant to the claims). -/
def mapSet : Registry → Nat → Finset String → Registry
  | [], k, v => [(k, v)]
  | (k0, v0) :: rest, k, v =>
      if k0 = k then (k, v) :: rest else (k0, v0) :: mapSet rest k v

/-- The symbol set a session is subscribed to (empty when the session has
no registry entry). -/
def regSet (reg : Registry) (sid : Nat) : Finset String :=
  (mapLookup reg sid).getD ∅

/-- The registered session keys, in registry order. -/
def regKeys (reg : Registry) : List Nat := reg.map Prod.fst

/-- `subscriptions_[session].insert(symbol)` - `operator[]` default-inserts
an empty set for an unknown key, then the symbol is added. -/
def regSubscribe (reg : Registry) (sid : Nat) (sym : String) : Registry :=
  mapSet reg sid (insert sym (regSet reg sid))

/-- `subscriptions_[session].erase(symbol)` - `operator[]` default-inserts
an empty set for an unknown key, then the symbol is erased. -/
def regUnsubscribe (reg : Registry) (sid : Nat) (sym : String) : Registry :=
  mapSet reg sid ((regSet reg sid).erase sym)

/-! ## Client frame handling

`WebsocketServer::handle_client_message` parses the frame, reads
`json["action"].asString()` and `json["symbol"].asString()`, and acts.  The
whole body is wrapped in try/catch, so a jsoncpp exception leaves every
piece of state untouched.  The parse step itself (jsoncpp `Reader::parse`)
is external; a frame is modelled from its parse outcome: `none` for a
parse failure, `some j` for the parsed value. -/

/-- The decode sequence of `handle_client_message`: read `action` then
`symbol` through `operator[]` and `asString`, either of which may throw. -/
def clientDecode (j : JValue) : Except Unit (String × String) := do
  let a ← getMember j "action" >>= jsonAsString
  let s ← getMember j "symbol" >>= jsonAsString
  pure (a, s)

/-- The decoded command of a frame, `none` when the parse failed or the
decode threw. -/
def clientCommand (parsed : Option JValue) : Option (String × String) :=
  match parsed with
  | none => none
  | some j => (clientDecode j).toOption

/-- Effects of processing one client frame: the new registry, the symbols
for which `subscribe_to_orderbook` was invoked (upstream subscribe
attempts), and whether the handler asked to close the session. -/
structure ClientMsgEffect where
  registry : Registry
  upstream : List String
  closeRequested : Bool
deriving DecidableEq

/-- `WebsocketServer::handle_client_message`: a parse failure returns; a
decode exception is caught; `subscribe` inserts the symbol and calls
`subscribe_to_orderbook` once; `unsubscribe` erases the symbol and sends
nothing upstream; any other action is logged and ignored.  No path closes
the session. -/
def handle_client_message (parsed : Option JValue) (sid : Nat)
    (reg : Registry) : ClientMsgEffect :=
  match parsed with
  | none => ⟨reg, [], false⟩
  | some j =>
    match clientDecode j with
    | Except.error _ => ⟨reg, [], false⟩
    | Except.ok (a, s) =>
      if a = "subscribe" then ⟨regSubscribe reg sid s, [s], false⟩
      else if a = "unsubscribe" then ⟨regUnsubscribe reg sid s, [], false⟩
      else ⟨reg, [], false⟩

/-! ## Upstream subscribe requests

`WebsocketServer::subscribe_to_orderbook` refuses with a logged warning
unless `deribit_connected_` is set, otherwise builds the JSON-RPC request
field by field (exactly the assignment sequence of the source) and writes
it to the upstream socket. -/

/-- The JSON-RPC subscribe request built by `subscribe_to_orderbook`,
assignment by assignment: `jsonrpc`, `id`, `method`, then
`params.channels = []` followed by an append of `book.<symbol>.100ms`. -/
def subscribeRequest (symbol : String) : JValue :=
  let s1 := setMember JValue.null "jsonrpc" (JValue.str "2.0")
  let s2 := setMember s1 "id" (JValue.num 42)
  let s3 := setMember s2 "method" (JValue.str "public/subscribe")
  let s4 := updMember s3 "params" (fun p => setMember p "channels" (JValue.arr []))
  updMember s4 "params" (fun p =>
    updMember p "channels" (fun c =>
      jarrAppend c (JValue.str ("book." ++ symbol ++ ".100ms"))))

/-- `WebsocketServer::subscribe_to_orderbook`: when `deribit_connected_` is
false, log a warning (`true` in the second component) and send nothing
(`none`); otherwise send the serialized request and log no warning. -/
def subscribe_to_orderbook (connected : Bool) (symbol : String) :
    Option JValue × Bool :=
  if connected then (some (subscribeRequest symbol), false)
  else (none, true)

/-! ## Upstream connector state

`deribit_connected_` is an `std::atomic<bool>`: set true only at the end of
a successful `init_deribit_connection` handshake; a connect failure leaves
it untouched (the catch block only logs); the reader thread sets it false
on a protocol close or any read error. -/

/-- Events that touch `deribit_connected_`. -/
inductive ConnEvent where
  | connectOk : ConnEvent
  | connectFail : ConnEvent
  | readClosed : ConnEvent
  | readError : ConnEvent
deriving DecidableEq

/-- Effect of one event on `deribit_connected_`. -/
def connStep (b : Bool) : ConnEvent → Bool
  | ConnEvent.connectOk => true
  | ConnEvent.connectFail => b
  | ConnEvent.readClosed => false
  | ConnEvent.readError => false

/-- `deribit_connected_` after a sequence of connector events. -/
def connRun (b : Bool) (evs : List ConnEvent) : Bool :=
  evs.foldl connStep b

/-! ## Upstream message classification

`WebsocketServer::on_deribit_message` parses the payload, extracts
`params.channel` when present, takes the text between the first and second
dot as the routing symbol (`std::string::find` / `substr`), and otherwise
classifies the message as an acknowledgment or as unrecognized.  The whole
body sits in a try/catch, so a jsoncpp exception is caught locally. -/

/-- `std::string::find(c)`: index of the first occurrence. -/
def strFind : List Char → Char → Option Nat
  | [], _ => none
  | x :: xs, c => if x = c then some 0 else (strFind xs c).map (· + 1)

/-- `std::string::find(c, start)`: index of the first occurrence at or
after `start`. -/
def strFindFrom (cs : List Char) (c : Char) (start : Nat) : Option Nat :=
  (strFind (cs.drop start) c).map (· + start)

/-- The routing-symbol extraction of `on_deribit_message`:
`firstDot = channel.find(dot)`, `secondDot = channel.find(dot, firstDot+1)`,
symbol = `channel.substr(firstDot+1, secondDot-firstDot-1)`; `none` when
either find fails. -/
def extractSymbolL (cs : List Char) : Option (List Char) :=
  match strFind cs '.' with
  | none => none
  | some i =>
      match strFindFrom cs '.' (i + 1) with
      | none => none
      | some j => some ((cs.drop (i + 1)).take (j - (i + 1)))

/-- String-level wrapper of `extractSymbolL`. -/
def extractSymbol (s : String) : Option String :=
  (extractSymbolL s.data).map List.asString

/-- The `root.isMember("params") && root["params"].isMember("channel")`
guard followed by `root["params"]["channel"].asString()`: `ok (some ch)`
when the channel text was obtained, `ok none` when the guard is false,
`error` when a jsoncpp call threw. -/
def channelOfE (root : JValue) : Except Unit (Option String) := do
  let hasParams ← isMemberE root "params"
  if hasParams then
    let p ← getMember root "params"
    let hasChan ← isMemberE p "channel"
    if hasChan then
      let c ← getMember p "channel"
      let ch ← jsonAsString c
      pure (some ch)
    else pure none
  else pure none

/-- Classification outcome of one upstream payload. -/
inductive UpClass where
  | parseFail : UpClass
  | caught : UpClass
  | update : String → UpClass
  | badChannel : UpClass
  | ack : UpClass
  | unrecognized : UpClass
deriving DecidableEq

/-- `WebsocketServer::on_deribit_message` control flow on the parse outcome
of the payload: channel messages route to `handle_orderbook_update` with
the extracted symbol; a channel without two dots logs the unexpected-format
warning; `id`+`result` messages are acknowledgments (whose `id` is read
back with `asString` for the log line, which can itself throw); anything
else logs the unrecognized-format warning. -/
def on_deribit_message (parsed : Option JValue) : UpClass :=
  match parsed with
  | none => UpClass.parseFail
  | some root =>
    match channelOfE root with
    | Except.error _ => UpClass.caught
    | Except.ok (some ch) =>
        match extractSymbol ch with
        | some sym => UpClass.update sym
        | none => UpClass.badChannel
    | Except.ok none =>
        match (do
          let hasId ← isMemberE root "id"
          if hasId then isMemberE root "result" else pure false :
            Except Unit Bool) with
        | Except.error _ => UpClass.caught
        | Except.ok true =>
            match getMember root "id" >>= jsonAsString with
            | Except.ok _ => UpClass.ack
            | Except.error _ => UpClass.caught
        | Except.ok false => UpClass.unrecognized

/-! ## Fan-out

`WebsocketServer::broadcast_to_subscribers` collects every session whose
symbol set contains the routing symbol and calls `send(data)` on each;
`handle_orderbook_update` wraps it with latency timing only. -/

/-- `broadcast_to_subscribers` as the list of `(session, frame)` pairs
handed to `WebSocketSession::send`, in iteration order. -/
def broadcast_to_subscribers (reg : Registry) (symbol payload : String) :
    List (Nat × String) :=
  let recipients := (reg.filter (fun e => symbol ∈ e.2)).map Prod.fst
  recipients.map (fun sid => (sid, payload))

/-- `WebsocketServer::handle_orderbook_update`: timing around the
broadcast; the sends are those of `broadcast_to_subscribers`. -/
def handle_orderbook_update (reg : Registry) (symbol payload : String) :
    List (Nat × String) :=
  broadcast_to_subscribers reg symbol payload

/-- The client frames sent for one upstream payload: the broadcast of the
raw payload when it was classified as a routed update, nothing
otherwise. -/
def deribit_sends (parsed : Option JValue) (reg : Registry)
    (payload : String) : List (Nat × String) :=
  match on_deribit_message parsed with
  | UpClass.update sym => handle_orderbook_update reg sym payload
  | _ => []

/-! ## Lock trace of the broadcast

`broadcast_to_subscribers` opens with
`std::lock_guard<std::mutex> lock(sessions_mutex_)` whose scope is the
whole function body: the snapshot copy, the `send` calls and the implicit
unlock at function exit all happen in that order.  The trace below lists
the events of one call together with whether `sessions_mutex_` is held
while the event executes. -/

/-- Events of one `broadcast_to_subscribers` call. -/
inductive BEvent where
  | acquire : BEvent
  | snapshot : BEvent
  | sendCall : Nat → BEvent
  | release : BEvent
deriving DecidableEq

/-- Whether an event is a `send` invocation. -/
def BEvent.isSend : BEvent → Bool
  | BEvent.sendCall _ => true
  | _ => false

/-- Annotate each event with the lock state during its execution:
`acquire` establishes the lock, `release` still executes under it. -/
def annotateLock : Bool → List BEvent → List (BEvent × Bool)
  | _, [] => []
  | held, e :: rest =>
    match e with
    | BEvent.acquire => (e, true) :: annotateLock true rest
    | BEvent.release => (e, true) :: annotateLock false rest
    | _ => (e, held) :: annotateLock held rest

/-- Event order of `broadcast_to_subscribers`: lock acquisition at entry,
recipient snapshot, one `send` per recipient, unlock at exit. -/
def broadcastEvents (reg : Registry) (symbol : String) : List BEvent :=
  let recipients := (reg.filter (fun e => symbol ∈ e.2)).map Prod.fst
  BEvent.acquire :: BEvent.snapshot ::
    (recipients.map BEvent.sendCall ++ [BEvent.release])

/-- The lock-annotated trace of one broadcast call. -/
def broadcastTrace (reg : Registry) (symbol : String) :
    List (BEvent × Bool) :=
  annotateLock false (broadcastEvents reg symbol)

/-! ## Per-session write machinery

`WebSocketSession::send` posts a lambda onto the session executor.  The
lambda takes `write_mutex_`, initiates `async_write` and returns -
releasing the mutex at that point, while the write it started is still in
flight until the completion handler (`on_write`) runs.  The state below
counts posted-but-unexecuted lambdas and initiated-but-uncompleted writes;
`runPosted` is one lambda execution (it holds the mutex for its whole -
atomic - step, which is exactly the extent of the `lock_guard`). -/

/-- Pending posted sends and in-flight `async_write` operations of one
session. -/
structure WriteState where
  pending : Nat
  inFlight : Nat
deriving DecidableEq

/-- Events of the session write machinery. -/
inductive WriteEvent where
  | send : WriteEvent
  | runPosted : WriteEvent
  | complete : WriteEvent
deriving DecidableEq

/-- One step: `send` posts a lambda; `runPosted` executes one posted
lambda (mutex held throughout) which initiates an `async_write`;
`complete` is one write completion (`on_write`). -/
def writeStep (s : WriteState) : WriteEvent → Option WriteState
  | WriteEvent.send => some ⟨s.pending + 1, s.inFlight⟩
  | WriteEvent.runPosted =>
      if s.pending = 0 then none
      else some ⟨s.pending - 1, s.inFlight + 1⟩
  | WriteEvent.complete =>
      if s.inFlight = 0 then none
      else some ⟨s.pending, s.inFlight - 1⟩

/-- Run a sequence of write events; `none` when an event was impossible. -/
def writeRun (s : WriteState) : List WriteEvent → Option WriteState
  | [] => some s
  | e :: rest => (writeStep s e).bind (fun s1 => writeRun s1 rest)

/-! ## Gateway lifecycle transition system

Session lifecycle and registry, as implemented: `on_accept` constructs the
session, pushes it into `sessions_` and default-inserts an empty symbol
set into `subscriptions_` under `sessions_mutex_`, and only then calls
`session->start()` (which begins the websocket handshake).  A handshake
failure, a read close or error, and `WebSocketSession::close` each only
log or post a close frame - none of them erases the registry entry.
`stop()` calls `close()` on all sessions and then clears `sessions_` and
`subscriptions_` wholesale.  Client frames arrive only through the read
pump of a session whose handshake succeeded. -/

/-- Session lifecycle states, following the spec names (`opened` stands
for the spec state Open). -/
inductive SessState where
  | accepting : SessState
  | opened : SessState
  | closing : SessState
  | closed : SessState
deriving DecidableEq

/-- Pointwise update of a session-state assignment. -/
def updFn (f : Nat → SessState) (k : Nat) (v : SessState) : Nat → SessState :=
  fun x => if x = k then v else f x

/-- Gateway events: accept, handshake outcome, read-pump termination,
close initiation and completion, client subscribe/unsubscribe frames, and
server stop. -/
inductive GEvent where
  | accept : Nat → GEvent
  | handshakeOk : Nat → GEvent
  | handshakeFail : Nat → GEvent
  | readError : Nat → GEvent
  | closeCall : Nat → GEvent
  | closeDone : Nat → GEvent
  | subscribeMsg : Nat → String → GEvent
  | unsubscribeMsg : Nat → String → GEvent
  | stop : GEvent

/-- Gateway state: the subscription registry and each session's lifecycle
state. -/
structure GState where
  registry : Registry
  sess : Nat → SessState

/-- Initial gateway state: empty registry, no live sessions. -/
def gInit : GState := ⟨[], fun _ => SessState.closed⟩

/-- One gateway step.  `accept` registers the session (empty symbol set)
before its handshake; handshake outcome and read errors only change the
session state; `closeCall` posts the close frame; client frames are
processed only for sessions whose read pump is active (handshake
succeeded), mutating the registry exactly as `handle_client_message`
does; `stop` closes every registered session and clears the registry. -/
def gstep (st : GState) : GEvent → GState
  | GEvent.accept sid =>
      ⟨mapSet st.registry sid ∅, updFn st.sess sid SessState.accepting⟩
  | GEvent.handshakeOk sid =>
      if st.sess sid = SessState.accepting then
        ⟨st.registry, updFn st.sess sid SessState.opened⟩
      else st
  | GEvent.handshakeFail sid =>
      if st.sess sid = SessState.accepting then
        ⟨st.registry, updFn st.sess sid SessState.closed⟩
      else st
  | GEvent.readError sid =>
      if st.sess sid = SessState.opened then
        ⟨st.registry, updFn st.sess sid SessState.closed⟩
      else st
  | GEvent.closeCall sid =>
      ⟨st.registry, updFn st.sess sid SessState.closing⟩
  | GEvent.closeDone sid =>
      if st.sess sid = SessState.closing then
        ⟨st.registry, updFn st.sess sid SessState.closed⟩
      else st
  | GEvent.subscribeMsg sid sym =>
      if st.sess sid = SessState.opened then
        ⟨regSubscribe st.registry sid sym, st.sess⟩
      else st
  | GEvent.unsubscribeMsg sid sym =>
      if st.sess sid = SessState.opened then
        ⟨regUnsubscribe st.registry sid sym, st.sess⟩
      else st
  | GEvent.stop =>
      ⟨[], fun sid =>
        if sid ∈ regKeys st.registry then SessState.closing else st.sess sid⟩

/-- Run the gateway from a state through a list of events. -/
def gRun (st : GState) (tr : List GEvent) : GState :=
  tr.foldl gstep st

/-- Which sessions would the registry hold after a trace: those accepted
since the last `stop`, never removed individually. -/
def accStep (acc : List Nat) : GEvent → List Nat
  | GEvent.accept sid => if sid ∈ acc then acc else acc ++ [sid]
  | GEvent.stop => []
  | _ => acc

/-- Sessions accepted since the last `stop` of a trace. -/
def accSince (tr : List GEvent) : List Nat :=
  tr.foldl accStep []

/-! ## Registry lemmas -/

theorem mapLookup_mapSet_self (reg : Registry) (k : Nat) (v : Finset String) :
    mapLookup (mapSet reg k v) k = some v := by
  induction reg with
  | nil => simp [mapSet, mapLookup]
  | cons e rest ih =>
      obtain ⟨k0, v0⟩ := e
      by_cases hk : k0 = k
      · simp [mapSet, hk, mapLookup]
      · simp [mapSet, hk, mapLookup, ih]

theorem mapSet_eq_self (reg : Registry) (k : Nat) (v : Finset String)
    (h : mapLookup reg k = some v) : mapSet reg k v = reg := by
  induction reg with
  | nil => simp [mapLookup] at h
  | cons e rest ih =>
      obtain ⟨k0, v0⟩ := e
      by_cases hk : k0 = k
      · subst hk
        simp [mapLookup] at h
        simp [mapSet, h]
      · simp [mapLookup, hk] at h
        simp [mapSet, hk, ih h]

theorem regKeys_mapSet (reg : Registry) (k : Nat) (v : Finset String) :
    regKeys (mapSet reg k v) =
      if k ∈ regKeys reg then regKeys reg else regKeys reg ++ [k] := by
  induction reg with
  | nil => simp [mapSet, regKeys]
  | cons e rest ih =>
      obtain ⟨k0, v0⟩ := e
      by_cases hk : k0 = k
      · subst hk
        simp [mapSet, regKeys]
      · have hne : ¬(k = k0) := fun h => hk h.symm
        have hcons : regKeys (mapSet ((k0, v0) :: rest) k v)
            = k0 :: regKeys (mapSet rest k v) := by
          simp [mapSet, hk, regKeys]
        rw [hcons, ih]
        by_cases hmem : k ∈ regKeys rest
        · rw [if_pos hmem]
          rw [if_pos (show k ∈ regKeys ((k0, v0) :: rest) from
            List.mem_cons_of_mem k0 hmem)]
          rfl
        · have hne2 : k ∉ regKeys ((k0, v0) :: rest) := by
            intro hc
            rcases List.mem_cons.mp hc with h | h
            · exact hk h.symm
            · exact hmem h
          rw [if_neg hmem, if_neg hne2]
          rfl

theorem mem_regKeys_mapSet (reg : Registry) (k : Nat) (v : Finset String) :
    k ∈ regKeys (mapSet reg k v) := by
  rw [regKeys_mapSet]
  by_cases h : k ∈ regKeys reg <;> simp [h]

theorem regKeys_mapSet_of_mem (reg : Registry) (k : Nat) (v : Finset String)
    (h : k ∈ regKeys reg) : regKeys (mapSet reg k v) = regKeys reg := by
  rw [regKeys_mapSet, if_pos h]

/-- C10.  Subscribe and unsubscribe are idempotent on the registry: a
subscribe for a symbol the session already holds leaves the registry
literally unchanged, and an unsubscribe for a symbol the session does not
hold leaves the session's symbol set unchanged (the entry is a
mathematical set; erasing an absent element is a no-op). -/
theorem registry_subscribe_unsubscribe_idempotent
    (reg : Registry) (sid : Nat) (sym : String) :
    (sym ∈ regSet reg sid → regSubscribe reg sid sym = reg) ∧
    (sym ∉ regSet reg sid →
      regSet (regUnsubscribe reg sid sym) sid = regSet reg sid) := by
  constructor
  · intro hmem
    unfold regSubscribe
    have hins : insert sym (regSet reg sid) = regSet reg sid :=
      Finset.insert_eq_self.mpr hmem
    rw [hins]
    cases hlook : mapLookup reg sid with
    | none =>
        exfalso
        simp [regSet, hlook] at hmem
    | some st =>
        have : regSet reg sid = st := by simp [regSet, hlook]
        rw [this]
        exact mapSet_eq_self reg sid st hlook
  · intro hmem
    unfold regUnsubscribe
    have hera : (regSet reg sid).erase sym = regSet reg sid :=
      Finset.erase_eq_of_not_mem hmem
    rw [hera]
    simp [regSet, mapLookup_mapSet_self]

/-- Witness for C10 at a concrete registry: a repeated subscribe to "b"
and an unsubscribe of the absent "e" change nothing. -/
theorem registry_idempotent_witness :
    regSubscribe [(0, {"b"})] 0 "b" = [(0, {"b"})] ∧
    regSet (regUnsubscribe [(0, {"b"})] 0 "e") 0 = regSet [(0, {"b"})] 0 := by
  constructor
  · exact (registry_subscribe_unsubscribe_idempotent [(0, {"b"})] 0 "b").1
      (by simp [regSet, mapLookup])
  · exact (registry_subscribe_unsubscribe_idempotent [(0, {"b"})] 0 "e").2
      (by simp [regSet, mapLookup])

/-- C9.  The upstream subscribe request built for a symbol is the JSON-RPC
2.0 object with `jsonrpc` "2.0", the fixed id 42, method
"public/subscribe" and `params.channels` the one-element array holding
`book.<symbol>.100ms`. -/
theorem subscribe_request_shape (symbol : String) :
    memberOrNull (subscribeRequest symbol) "jsonrpc" = JValue.str "2.0" ∧
    memberOrNull (subscribeRequest symbol) "id" = JValue.num 42 ∧
    memberOrNull (subscribeRequest symbol) "method" =
      JValue.str "public/subscribe" ∧
    memberOrNull (memberOrNull (subscribeRequest symbol) "params") "channels" =
      JValue.arr [JValue.str ("book." ++ symbol ++ ".100ms")] := by
  refine ⟨rfl, rfl, rfl, rfl⟩

/-- C5 (model of the defect).  Two `send` calls whose posted lambdas both
run before either write completes leave two `async_write` operations in
flight on one session: the per-session mutex only guards the initiation,
not the in-flight write. -/
theorem session_write_two_in_flight :
    writeRun ⟨0, 0⟩
        [WriteEvent.send, WriteEvent.send,
         WriteEvent.runPosted, WriteEvent.runPosted] =
      some ⟨0, 2⟩ := by
  decide

/-- Counterexample to C3: the frame whose JSON is the object with a single
member `action` set to "subscribe" - malformed under the codec contract,
as it lacks the string field `symbol` - mutates the registry: the missing
`symbol` is read back as the empty string and subscribed. -/
theorem malformed_frame_mutates_registry :
    (handle_client_message
        (some (JValue.obj [("action", JValue.str "subscribe")])) 0 []).registry
      = [(0, {""})] ∧
    (handle_client_message
        (some (JValue.obj [("action", JValue.str "subscribe")])) 0 []).registry
      ≠ [] := by
  have h1 : (handle_client_message
      (some (JValue.obj [("action", JValue.str "subscribe")])) 0 []).registry
        = [(0, {""})] := rfl
  refine ⟨h1, ?_⟩
  rw [h1]
  simp

/-- C3 (amended).  No client frame ever closes the session, and a frame
that fails to parse, whose decode throws (non-object root, array or object
field), or whose decoded action is neither "subscribe" nor "unsubscribe"
leaves the registry completely unchanged.  (Missing and null fields decode
as the empty string, which is why a subscribe frame lacking `symbol` is
not covered: it subscribes the session to "".) -/
theorem malformed_frame_no_close_no_registry_change :
    (∀ (parsed : Option JValue) (sid : Nat) (reg : Registry),
      (handle_client_message parsed sid reg).closeRequested = false) ∧
    (∀ (parsed : Option JValue) (sid : Nat) (reg : Registry),
      (∀ a s, clientCommand parsed = some (a, s) →
        a ≠ "subscribe" ∧ a ≠ "unsubscribe") →
      handle_client_message parsed sid reg = ⟨reg, [], false⟩) := by
  constructor
  · intro parsed sid reg
    cases parsed with
    | none => rfl
    | some j =>
        unfold handle_client_message
        cases hdec : clientDecode j with
        | error e => simp [hdec]
        | ok p =>
            obtain ⟨a, s⟩ := p
            by_cases ha : a = "subscribe"
            · simp [hdec, ha]
            · by_cases hu : a = "unsubscribe" <;> simp [hdec, ha, hu]
  · intro parsed sid reg hbad
    cases parsed with
    | none => rfl
    | some j =>
        unfold handle_client_message
        cases hdec : clientDecode j with
        | error e => simp [hdec]
        | ok p =>
            obtain ⟨a, s⟩ := p
            have hcmd : clientCommand (some j) = some (a, s) := by
              simp [clientCommand, hdec, Except.toOption]
            obtain ⟨ha, hu⟩ := hbad a s hcmd
            simp [hdec, ha, hu]

/-- Witness for C3 (amended) at a parse failure: nothing changes. -/
theorem malformed_frame_no_change_witness :
    handle_client_message none 0 [(0, {"b"})] =
      ⟨[(0, {"b"})], [], false⟩ := by
  exact (malformed_frame_no_close_no_registry_change).2 none 0 [(0, {"b"})]
    (by intro a s h; simp [clientCommand] at h)

/-- C7.  Every decoded subscribe command triggers exactly one upstream
subscribe attempt; a decoded unsubscribe command triggers none; two
distinct sessions subscribing to the same symbol trigger two attempts
(no deduplication). -/
theorem subscribe_attempts_per_command :
    (∀ (parsed : Option JValue) (sid : Nat) (reg : Registry) (s : String),
      clientCommand parsed = some ("subscribe", s) →
      (handle_client_message parsed sid reg).upstream = [s]) ∧
    (∀ (parsed : Option JValue) (sid : Nat) (reg : Registry) (s : String),
      clientCommand parsed = some ("unsubscribe", s) →
      (handle_client_message parsed sid reg).upstream = []) ∧
    (∀ (p1 p2 : Option JValue) (sid1 sid2 : Nat) (reg : Registry)
        (s : String),
      clientCommand p1 = some ("subscribe", s) →
      clientCommand p2 = some ("subscribe", s) →
      (handle_client_message p1 sid1 reg).upstream ++
        (handle_client_message p2 sid2
          (handle_client_message p1 sid1 reg).registry).upstream = [s, s]) := by
  have hsub : ∀ (parsed : Option JValue) (sid : Nat) (reg : Registry)
      (s : String), clientCommand parsed = some ("subscribe", s) →
      (handle_client_message parsed sid reg).upstream = [s] := by
    intro parsed sid reg s hcmd
    cases parsed with
    | none => simp [clientCommand] at hcmd
    | some j =>
        cases hdec : clientDecode j with
        | error e => simp [clientCommand, hdec, Except.toOption] at hcmd
        | ok p =>
            simp [clientCommand, hdec, Except.toOption] at hcmd
            subst hcmd
            simp [handle_client_message, hdec]
  refine ⟨hsub, ?_, ?_⟩
  · intro parsed sid reg s hcmd
    cases parsed with
    | none => simp [clientCommand] at hcmd
    | some j =>
        cases hdec : clientDecode j with
        | error e => simp [clientCommand, hdec, Except.toOption] at hcmd
        | ok p =>
            simp [clientCommand, hdec, Except.toOption] at hcmd
            subst hcmd
            simp [handle_client_message, hdec]
  · intro p1 p2 sid1 sid2 reg s h1 h2
    rw [hsub p1 sid1 reg s h1,
      hsub p2 sid2 (handle_client_message p1 sid1 reg).registry s h2]
    rfl

/-- Witness for C7 at the concrete subscribe and unsubscribe frames for
symbol "b", from sessions 0 and 1. -/
theorem subscribe_attempts_witness :
    (handle_client_message
        (some (JValue.obj [("action", JValue.str "subscribe"),
          ("symbol", JValue.str "b")])) 0 []).upstream = ["b"] ∧
    (handle_client_message
        (some (JValue.obj [("action", JValue.str "unsubscribe"),
          ("symbol", JValue.str "b")])) 0 []).upstream = [] ∧
    (handle_client_message
        (some (JValue.obj [("action", JValue.str "subscribe"),
          ("symbol", JValue.str "b")])) 0 []).upstream ++
      (handle_client_message
        (some (JValue.obj [("action", JValue.str "subscribe"),
          ("symbol", JValue.str "b")])) 1
        (handle_client_message
          (some (JValue.obj [("action", JValue.str "subscribe"),
            ("symbol", JValue.str "b")])) 0 []).registry).upstream =
      ["b", "b"] := by
  refine ⟨?_, ?_, ?_⟩
  · exact subscribe_attempts_per_command.1
      (some (JValue.obj [("action", JValue.str "subscribe"),
        ("symbol", JValue.str "b")])) 0 [] "b" rfl
  · exact subscribe_attempts_per_command.2.1
      (some (JValue.obj [("action", JValue.str "unsubscribe"),
        ("symbol", JValue.str "b")])) 0 [] "b" rfl
  · exact subscribe_attempts_per_command.2.2
      (some (JValue.obj [("action", JValue.str "subscribe"),
        ("symbol", JValue.str "b")]))
      (some (JValue.obj [("action", JValue.str "subscribe"),
        ("symbol", JValue.str "b")])) 0 1 [] "b" rfl rfl

theorem connRun_false_of_no_connectOk (evs : List ConnEvent)
    (h : ConnEvent.connectOk ∉ evs) : connRun false evs = false := by
  induction evs with
  | nil => rfl
  | cons e rest ih =>
      have he : e ≠ ConnEvent.connectOk := by
        intro hc
        exact h (hc ▸ List.mem_cons_self e rest)
      have hrest : ConnEvent.connectOk ∉ rest := fun hc =>
        h (List.mem_cons_of_mem e hc)
      have hstep : connStep false e = false := by
        cases e <;> simp [connStep] at he ⊢
      calc connRun false (e :: rest)
          = connRun (connStep false e) rest := rfl
        _ = connRun false rest := by rw [hstep]
        _ = false := ih hrest

/-- C8.  Whenever the connector is not connected - a fatal read event with
no later successful connect, or never connected at all - a subscribe
attempt logs a warning and sends nothing upstream. -/
theorem disconnected_subscribe_is_noop :
    (∀ (b : Bool) (pre post : List ConnEvent) (e : ConnEvent) (sym : String),
      (e = ConnEvent.readClosed ∨ e = ConnEvent.readError) →
      ConnEvent.connectOk ∉ post →
      connRun b (pre ++ e :: post) = false ∧
      subscribe_to_orderbook (connRun b (pre ++ e :: post)) sym =
        (none, true)) ∧
    (∀ (evs : List ConnEvent) (sym : String),
      ConnEvent.connectOk ∉ evs →
      connRun false evs = false ∧
      subscribe_to_orderbook (connRun false evs) sym = (none, true)) := by
  constructor
  · intro b pre post e sym he hpost
    have hfatal : connStep (connRun b pre) e = false := by
      rcases he with h | h <;> subst h <;> rfl
    have hall : connRun b (pre ++ e :: post) = false := by
      unfold connRun
      rw [List.foldl_append]
      show connRun (connStep (connRun b pre) e) post = false
      rw [hfatal]
      exact connRun_false_of_no_connectOk post hpost
    exact ⟨hall, by rw [hall]; rfl⟩
  · intro evs sym h
    have hall := connRun_false_of_no_connectOk evs h
    exact ⟨hall, by rw [hall]; rfl⟩

/-- Witness for C8: after a read error with no reconnect, and from the
never-connected start, a subscribe for "b" warns and sends nothing. -/
theorem disconnected_subscribe_witness :
    (connRun true
        ([ConnEvent.connectOk] ++ ConnEvent.readError :: []) = false ∧
      subscribe_to_orderbook
        (connRun true ([ConnEvent.connectOk] ++ ConnEvent.readError :: []))
        "b" = (none, true)) ∧
    (connRun false [] = false ∧
      subscribe_to_orderbook (connRun false []) "b" = (none, true)) := by
  constructor
  · exact disconnected_subscribe_is_noop.1 true [ConnEvent.connectOk] []
      ConnEvent.readError "b" (Or.inr rfl) (by simp)
  · exact disconnected_subscribe_is_noop.2 [] "b" (by simp)

/-- Counterexample to C6: at the concrete registry holding one session
subscribed to "b", the broadcast for "b" invokes `send` while
`sessions_mutex_` is held - the `lock_guard` scope is the whole function,
so the lock is not released before sending. -/
theorem broadcast_send_under_lock_cex :
    (BEvent.sendCall 0, true) ∈ broadcastTrace [(0, {"b"})] "b" := by
  decide

theorem annotateLock_sends (rs : List Nat) :
    annotateLock true (rs.map BEvent.sendCall ++ [BEvent.release]) =
      rs.map (fun sid => (BEvent.sendCall sid, true)) ++
        [(BEvent.release, true)] := by
  induction rs with
  | nil => rfl
  | cons r rest ih => simp [annotateLock, ih]

/-- C6 (amended).  In every broadcast, the lock is taken first, the
recipient snapshot is copied under it, every `send` invocation happens
while the lock is still held, and the lock is released only as the last
event of the call.  (The `send` so invoked merely posts the write to the
session executor - see the write-machinery model - so no socket write
runs inline under the lock.) -/
theorem broadcast_lock_trace (reg : Registry) (sym : String) :
    (broadcastTrace reg sym).head? = some (BEvent.acquire, true) ∧
    ((broadcastTrace reg sym).drop 1).head? = some (BEvent.snapshot, true) ∧
    ((broadcastTrace reg sym).filter (fun p => p.1.isSend)).all
        (fun p => p.2) = true ∧
    (broadcastTrace reg sym).getLast? = some (BEvent.release, true) := by
  have htr : broadcastTrace reg sym =
      (BEvent.acquire, true) :: (BEvent.snapshot, true) ::
        (((reg.filter (fun e => sym ∈ e.2)).map Prod.fst).map
            (fun sid => (BEvent.sendCall sid, true)) ++
          [(BEvent.release, true)]) := by
    simp only [broadcastTrace, broadcastEvents]
    rw [show annotateLock false (BEvent.acquire :: BEvent.snapshot ::
        (((reg.filter (fun e => sym ∈ e.2)).map Prod.fst).map
          BEvent.sendCall ++ [BEvent.release])) =
        (BEvent.acquire, true) :: (BEvent.snapshot, true) ::
          annotateLock true
            (((reg.filter (fun e => sym ∈ e.2)).map Prod.fst).map
              BEvent.sendCall ++ [BEvent.release]) from rfl]
    rw [annotateLock_sends]
  refine ⟨by rw [htr]; rfl, by rw [htr]; rfl, ?_, ?_⟩
  · rw [htr]
    simp [BEvent.isSend, List.filter_append, List.filter_map, List.all_map]
  · rw [htr]
    have : (BEvent.acquire, true) :: (BEvent.snapshot, true) ::
        (((reg.filter (fun e => sym ∈ e.2)).map Prod.fst).map
            (fun sid => (BEvent.sendCall sid, true)) ++
          [(BEvent.release, true)]) =
        ((BEvent.acquire, true) :: (BEvent.snapshot, true) ::
          ((reg.filter (fun e => sym ∈ e.2)).map Prod.fst).map
            (fun sid => (BEvent.sendCall sid, true))) ++
          [(BEvent.release, true)] := by
      simp
    rw [this, List.getLast?_concat]

theorem broadcast_filter_of_not_registered (reg : Registry)
    (sym payload : String) (sid : Nat) (h : sid ∉ regKeys reg) :
    (broadcast_to_subscribers reg sym payload).filter
      (fun e => e.1 == sid) = [] := by
  rw [List.filter_eq_nil_iff]
  intro e he
  simp only [broadcast_to_subscribers, List.mem_map, List.mem_filter] at he
  obtain ⟨k, ⟨⟨entry, ⟨hentry, _⟩, hfst⟩, hpair⟩⟩ := he
  intro hbeq
  apply h
  have : e.1 = sid := by simpa using hbeq
  rw [← hpair] at this
  simp at this
  subst this
  rw [← hfst]
  exact List.mem_map_of_mem Prod.fst hentry

/-- C1.  For an upstream notification routed to symbol `sym`, a registry
with unique session keys (as `std::map` guarantees) yields: every session
whose entry contains `sym` is sent exactly one frame, byte-identical to
the upstream payload, and every session whose entry does not contain
`sym` - never subscribed or since unsubscribed - is sent nothing. -/
theorem broadcast_exact_delivery (reg : Registry)
    (h : (regKeys reg).Nodup) (sym payload : String) (sid : Nat) :
    (broadcast_to_subscribers reg sym payload).filter
        (fun e => e.1 == sid) =
      if sym ∈ regSet reg sid then [(sid, payload)] else [] := by
  induction reg with
  | nil => simp [broadcast_to_subscribers, regSet, mapLookup]
  | cons e rest ih =>
      obtain ⟨k, st⟩ := e
      have hkeys : regKeys ((k, st) :: rest) = k :: regKeys rest := rfl
      rw [hkeys] at h
      obtain ⟨hknot, hrest⟩ := List.nodup_cons.mp h
      have hbc : broadcast_to_subscribers ((k, st) :: rest) sym payload =
          (if sym ∈ st then [(k, payload)] else []) ++
            broadcast_to_subscribers rest sym payload := by
        by_cases hmem : sym ∈ st <;> simp [broadcast_to_subscribers, hmem]
      rw [hbc, List.filter_append]
      by_cases hk : k = sid
      · subst hk
        have hset : regSet ((k, st) :: rest) k = st := by
          simp [regSet, mapLookup]
        rw [hset]
        rw [broadcast_filter_of_not_registered rest sym payload k hknot]
        by_cases hmem : sym ∈ st
        · simp [hmem]
        · simp [hmem]
      · have hset : regSet ((k, st) :: rest) sid = regSet rest sid := by
          simp [regSet, mapLookup, hk]
        rw [hset, ih hrest]
        have hhead : ((if sym ∈ st then [(k, payload)] else []) :
            List (Nat × String)).filter (fun e => e.1 == sid) = [] := by
          by_cases hmem : sym ∈ st <;> simp [hmem, hk]
        rw [hhead, List.nil_append]

/-- Witness for C1 at the registry where session 0 subscribes "b" and
session 1 does not: session 0 receives the payload exactly once, session 1
receives nothing. -/
theorem broadcast_exact_delivery_witness :
    (regKeys [(0, {"b"}), (1, (∅ : Finset String))]).Nodup ∧
    (broadcast_to_subscribers [(0, {"b"}), (1, ∅)] "b" "p").filter
        (fun e => e.1 == 0) = [(0, "p")] ∧
    (broadcast_to_subscribers [(0, {"b"}), (1, ∅)] "b" "p").filter
        (fun e => e.1 == 1) = [] := by
  refine ⟨by decide, ?_, ?_⟩
  · have h0 := broadcast_exact_delivery [(0, {"b"}), (1, ∅)] (by decide)
      "b" "p" 0
    rw [if_pos (show ("b" : String) ∈ regSet [(0, {"b"}), (1, ∅)] 0 by
      decide)] at h0
    exact h0
  · have h1 := broadcast_exact_delivery [(0, {"b"}), (1, ∅)] (by decide)
      "b" "p" 1
    rw [if_neg (show ¬ ("b" : String) ∈ regSet [(0, {"b"}), (1, ∅)] 1 by
      decide)] at h1
    exact h1

theorem strFind_of_not_mem (cs : List Char) (c : Char) (h : c ∉ cs) :
    strFind cs c = none := by
  induction cs with
  | nil => rfl
  | cons x xs ih =>
      have hx : ¬(x = c) := fun hc => h (hc ▸ List.mem_cons_self x xs)
      have hxs : c ∉ xs := fun hc => h (List.mem_cons_of_mem x hc)
      simp [strFind, hx, ih hxs]

theorem strFind_append_of_not_mem (a l : List Char) (c : Char)
    (h : c ∉ a) :
    strFind (a ++ l) c = (strFind l c).map (· + a.length) := by
  induction a with
  | nil =>
      cases hf : strFind l c <;> simp [hf]
  | cons x xs ih =>
      have hx : ¬(x = c) := fun hc => h (hc ▸ List.mem_cons_self x xs)
      have hxs : c ∉ xs := fun hc => h (List.mem_cons_of_mem x hc)
      rw [List.cons_append]
      show (if x = c then some 0
        else (strFind (xs ++ l) c).map (· + 1)) = _
      rw [if_neg hx, ih hxs]
      cases hf : strFind l c with
      | none => simp
      | some i => simp [Nat.add_assoc]

theorem strFind_some_split (cs : List Char) (c : Char) (i : Nat)
    (h : strFind cs c = some i) :
    ∃ a r, cs = a ++ c :: r ∧ c ∉ a ∧ a.length = i := by
  induction cs generalizing i with
  | nil => simp [strFind] at h
  | cons x xs ih =>
      by_cases hx : x = c
      · subst hx
        simp [strFind] at h
        exact ⟨[], xs, by simp, by simp, by simp [← h]⟩
      · simp [strFind, hx] at h
        obtain ⟨i0, hi0, hlen⟩ := h
        obtain ⟨a, r, hcs, hna, hlena⟩ := ih i0 hi0
        refine ⟨x :: a, r, by rw [hcs, List.cons_append], ?_, ?_⟩
        · intro hc
          rcases List.mem_cons.mp hc with hh | hh
          · exact hx hh.symm
          · exact hna hh
        · simp [hlena, hlen]

theorem drop_append_cons_length (a r : List Char) (c : Char) :
    (a ++ c :: r).drop (a.length + 1) = r := by
  have h1 : a ++ c :: r = (a ++ [c]) ++ r := by simp
  have h2 : a.length + 1 = (a ++ [c]).length := by simp
  rw [h1, h2, List.drop_left]

theorem extractSymbolL_decomposed (a b c : List Char)
    (ha : '.' ∉ a) (hb : '.' ∉ b) :
    extractSymbolL (a ++ '.' :: (b ++ '.' :: c)) = some b := by
  have h1 : strFind (a ++ '.' :: (b ++ '.' :: c)) '.' = some a.length := by
    rw [strFind_append_of_not_mem _ _ _ ha]
    show (some 0).map (· + a.length) = some a.length
    simp
  have hdrop : (a ++ '.' :: (b ++ '.' :: c)).drop (a.length + 1) =
      b ++ '.' :: c := drop_append_cons_length a _ '.'
  have h2 : strFindFrom (a ++ '.' :: (b ++ '.' :: c)) '.' (a.length + 1) =
      some (b.length + (a.length + 1)) := by
    unfold strFindFrom
    rw [hdrop, strFind_append_of_not_mem _ _ _ hb]
    show ((some 0).map (· + b.length)).map (· + (a.length + 1)) = _
    simp
  unfold extractSymbolL
  rw [h1]
  simp only [h2, hdrop]
  have h3 : b.length + (a.length + 1) - (a.length + 1) = b.length := by
    omega
  rw [h3]
  rw [show b ++ '.' :: c = b ++ ('.' :: c) from rfl, List.take_left]

theorem extractSymbolL_few_dots (cs : List Char)
    (h : List.count '.' cs < 2) : extractSymbolL cs = none := by
  cases h1 : strFind cs '.' with
  | none => unfold extractSymbolL; rw [h1]
  | some i =>
      obtain ⟨a, r, hcs, hna, hlen⟩ := strFind_some_split cs '.' i h1
      have hcount : List.count '.' cs = List.count '.' r + 1 := by
        rw [hcs, List.count_append]
        rw [List.count_cons_self]
        rw [List.count_eq_zero.mpr hna]
        simp
      have hr : ('.' : Char) ∉ r := by
        rw [hcount] at h
        have : List.count '.' r = 0 := by omega
        exact List.count_eq_zero.mp this
      have hdrop : cs.drop (i + 1) = r := by
        rw [hcs, ← hlen]
        exact drop_append_cons_length a r '.'
      have h2 : strFindFrom cs '.' (i + 1) = none := by
        unfold strFindFrom
        rw [hdrop, strFind_of_not_mem r '.' hr]
        rfl
      unfold extractSymbolL
      rw [h1]
      simp only [h2]

/-- C4.  For an upstream message whose `params.channel` reads as the text
`ch`: when `ch` decomposes around two dots, the routing symbol is exactly
the segment between the first and the second dot (the second dot-delimited
segment), and when `ch` holds fewer than two dots the message is classified
with the unexpected-channel-format warning and nothing is broadcast - no
crash, since the classifier is total. -/
theorem channel_symbol_extraction (root : JValue) (ch : String)
    (hch : channelOfE root = Except.ok (some ch)) :
    (∀ a b c : List Char, '.' ∉ a → '.' ∉ b →
      ch.data = a ++ '.' :: (b ++ '.' :: c) →
      on_deribit_message (some root) = UpClass.update b.asString) ∧
    (List.count '.' ch.data < 2 →
      on_deribit_message (some root) = UpClass.badChannel ∧
      ∀ (reg : Registry) (payload : String),
        deribit_sends (some root) reg payload = []) := by
  constructor
  · intro a b c ha hb hdata
    have hex : extractSymbol ch = some b.asString := by
      unfold extractSymbol
      rw [hdata, extractSymbolL_decomposed a b c ha hb]
      rfl
    simp [on_deribit_message, hch, hex]
  · intro hcnt
    have hex : extractSymbol ch = none := by
      unfold extractSymbol
      rw [extractSymbolL_few_dots ch.data hcnt]
      rfl
    constructor
    · simp [on_deribit_message, hch, hex]
    · intro reg payload
      simp [deribit_sends, on_deribit_message, hch, hex]

/-- Witness for C4: the channel "book.BTC-PERPETUAL.100ms" routes to
symbol "BTC-PERPETUAL"; the channel "heartbeat" (no dots) is classified
as unexpected format and broadcasts nothing. -/
theorem channel_symbol_extraction_witness :
    on_deribit_message (some (JValue.obj [("params", JValue.obj
        [("channel", JValue.str "book.BTC-PERPETUAL.100ms")])])) =
      UpClass.update "BTC-PERPETUAL" ∧
    on_deribit_message (some (JValue.obj [("params", JValue.obj
        [("channel", JValue.str "heartbeat")])])) =
      UpClass.badChannel ∧
    deribit_sends (some (JValue.obj [("params", JValue.obj
        [("channel", JValue.str "heartbeat")])])) [(0, {"b"})] "p" = [] := by
  refine ⟨?_, ?_, ?_⟩
  · have h := (channel_symbol_extraction
      (JValue.obj [("params", JValue.obj
        [("channel", JValue.str "book.BTC-PERPETUAL.100ms")])])
      "book.BTC-PERPETUAL.100ms" rfl).1
      "book".data "BTC-PERPETUAL".data "100ms".data
      (by decide) (by decide) (by decide)
    exact h
  · exact ((channel_symbol_extraction
      (JValue.obj [("params", JValue.obj
        [("channel", JValue.str "heartbeat")])])
      "heartbeat" rfl).2 (by decide)).1
  · exact ((channel_symbol_extraction
      (JValue.obj [("params", JValue.obj
        [("channel", JValue.str "heartbeat")])])
      "heartbeat" rfl).2 (by decide)).2 [(0, {"b"})] "p"

/-- Auxiliary invariant: a session that is accepting or open has a
registry entry (it was registered at accept and only `stop` removes). -/
def Inv1 (st : GState) : Prop :=
  ∀ sid, st.sess sid = SessState.accepting ∨ st.sess sid = SessState.opened →
    sid ∈ regKeys st.registry

theorem gstep_preserves (st : GState) (e : GEvent) (h : Inv1 st) :
    regKeys (gstep st e).registry = accStep (regKeys st.registry) e ∧
    Inv1 (gstep st e) := by
  cases e with
  | accept sid =>
      constructor
      · show regKeys (mapSet st.registry sid ∅) = _
        rw [regKeys_mapSet]
        rfl
      · intro x hx
        show x ∈ regKeys (mapSet st.registry sid ∅)
        by_cases hxsid : x = sid
        · subst hxsid
          exact mem_regKeys_mapSet _ _ _
        · have hsx : (gstep st (GEvent.accept sid)).sess x = st.sess x := by
            simp [gstep, updFn, hxsid]
          rw [hsx] at hx
          have hmem := h x hx
          rw [regKeys_mapSet]
          by_cases hin : sid ∈ regKeys st.registry
          · rw [if_pos hin]; exact hmem
          · rw [if_neg hin]; exact List.mem_append_left _ hmem
  | handshakeOk sid =>
      by_cases hg : st.sess sid = SessState.accepting
      · refine ⟨by simp [gstep, hg, accStep], ?_⟩
        intro x hx
        simp only [gstep, hg, if_pos] at hx ⊢
        by_cases hxsid : x = sid
        · subst hxsid
          exact h x (Or.inl hg)
        · rw [show updFn st.sess sid SessState.opened x = st.sess x by
            simp [updFn, hxsid]] at hx
          exact h x hx
      · exact ⟨by simp [gstep, hg, accStep], by simpa [gstep, hg] using h⟩
  | handshakeFail sid =>
      by_cases hg : st.sess sid = SessState.accepting
      · refine ⟨by simp [gstep, hg, accStep], ?_⟩
        intro x hx
        simp only [gstep, hg, if_pos] at hx ⊢
        by_cases hxsid : x = sid
        · subst hxsid
          rw [show updFn st.sess x SessState.closed x = SessState.closed by
            simp [updFn]] at hx
          rcases hx with hx | hx <;> exact absurd hx (by decide)
        · rw [show updFn st.sess sid SessState.closed x = st.sess x by
            simp [updFn, hxsid]] at hx
          exact h x hx
      · exact ⟨by simp [gstep, hg, accStep], by simpa [gstep, hg] using h⟩
  | readError sid =>
      by_cases hg : st.sess sid = SessState.opened
      · refine ⟨by simp [gstep, hg, accStep], ?_⟩
        intro x hx
        simp only [gstep, hg, if_pos] at hx ⊢
        by_cases hxsid : x = sid
        · subst hxsid
          rw [show updFn st.sess x SessState.closed x = SessState.closed by
            simp [updFn]] at hx
          rcases hx with hx | hx <;> exact absurd hx (by decide)
        · rw [show updFn st.sess sid SessState.closed x = st.sess x by
            simp [updFn, hxsid]] at hx
          exact h x hx
      · exact ⟨by simp [gstep, hg, accStep], by simpa [gstep, hg] using h⟩
  | closeCall sid =>
      refine ⟨by simp [gstep, accStep], ?_⟩
      intro x hx
      simp only [gstep] at hx ⊢
      by_cases hxsid : x = sid
      · subst hxsid
        rw [show updFn st.sess x SessState.closing x = SessState.closing by
          simp [updFn]] at hx
        rcases hx with hx | hx <;> exact absurd hx (by decide)
      · rw [show updFn st.sess sid SessState.closing x = st.sess x by
          simp [updFn, hxsid]] at hx
        exact h x hx
  | closeDone sid =>
      by_cases hg : st.sess sid = SessState.closing
      · refine ⟨by simp [gstep, hg, accStep], ?_⟩
        intro x hx
        simp only [gstep, hg, if_pos] at hx ⊢
        by_cases hxsid : x = sid
        · subst hxsid
          rw [show updFn st.sess x SessState.closed x = SessState.closed by
            simp [updFn]] at hx
          rcases hx with hx | hx <;> exact absurd hx (by decide)
        · rw [show updFn st.sess sid SessState.closed x = st.sess x by
            simp [updFn, hxsid]] at hx
          exact h x hx
      · exact ⟨by simp [gstep, hg, accStep], by simpa [gstep, hg] using h⟩
  | subscribeMsg sid sym =>
      by_cases hg : st.sess sid = SessState.opened
      · have hmem : sid ∈ regKeys st.registry := h sid (Or.inr hg)
        have hkeys : regKeys (regSubscribe st.registry sid sym) =
            regKeys st.registry := regKeys_mapSet_of_mem _ _ _ hmem
        refine ⟨by simp [gstep, hg, accStep, hkeys], ?_⟩
        intro x hx
        simp only [gstep, hg, if_pos] at hx ⊢
        rw [hkeys]
        exact h x hx
      · exact ⟨by simp [gstep, hg, accStep], by simpa [gstep, hg] using h⟩
  | unsubscribeMsg sid sym =>
      by_cases hg : st.sess sid = SessState.opened
      · have hmem : sid ∈ regKeys st.registry := h sid (Or.inr hg)
        have hkeys : regKeys (regUnsubscribe st.registry sid sym) =
            regKeys st.registry := regKeys_mapSet_of_mem _ _ _ hmem
        refine ⟨by simp [gstep, hg, accStep, hkeys], ?_⟩
        intro x hx
        simp only [gstep, hg, if_pos] at hx ⊢
        rw [hkeys]
        exact h x hx
      · exact ⟨by simp [gstep, hg, accStep], by simpa [gstep, hg] using h⟩
  | stop =>
      refine ⟨by simp [gstep, accStep, regKeys], ?_⟩
      intro x hx
      simp only [gstep] at hx
      by_cases hin : x ∈ regKeys st.registry
      · rw [if_pos hin] at hx
        rcases hx with hx | hx <;> exact absurd hx (by decide)
      · rw [if_neg hin] at hx
        exact absurd (h x hx) hin

theorem gRun_keys (tr : List GEvent) : ∀ (st : GState), Inv1 st →
    regKeys (gRun st tr).registry = tr.foldl accStep (regKeys st.registry) ∧
    Inv1 (gRun st tr) := by
  induction tr with
  | nil => exact fun st h => ⟨rfl, h⟩
  | cons e rest ih =>
      intro st h
      have h1 := gstep_preserves st e h
      have h2 := ih (gstep st e) h1.2
      refine ⟨?_, h2.2⟩
      rw [show gRun st (e :: rest) = gRun (gstep st e) rest from rfl,
        h2.1, h1.1]
      rfl

/-- C2 (amended).  A session key exists in the registry exactly when the
session was accepted since the last `stop`: registration happens at
accept, before the handshake, and neither handshake failure, nor a read
error, nor `close()` ever removes the key - only `stop()` does, clearing
all entries at once. -/
theorem registry_keys_characterization (tr : List GEvent) (sid : Nat) :
    sid ∈ regKeys (gRun gInit tr).registry ↔ sid ∈ accSince tr := by
  have hinv : Inv1 gInit := by
    intro x hx
    rcases hx with hx | hx <;> simp [gInit] at hx
  rw [(gRun_keys tr gInit hinv).1]
  rfl

/-- Counterexample to C2: after an accept whose websocket handshake then
fails, the session is registered although it is in neither state Open nor
state Closing - `on_accept` registers before the handshake, and the
failure path does not unregister. -/
theorem registered_while_not_open_cex :
    0 ∈ regKeys (gRun gInit
        [GEvent.accept 0, GEvent.handshakeFail 0]).registry ∧
    (gRun gInit [GEvent.accept 0, GEvent.handshakeFail 0]).sess 0 ≠
      SessState.opened ∧
    (gRun gInit [GEvent.accept 0, GEvent.handshakeFail 0]).sess 0 ≠
      SessState.closing := by
  decide

end DeribitGateway
